import Mathlib

/-!
Shallow embedding of the custom-deployment-controller reconcile engine.

The source is `internal/controller/controller.go` (finalizer-aware
`Reconcile`, `handleCreateOrUpdate`, `handleDeletion`, `desiredDeployment`)
and `controller/controller.go` (the finalizer-free variant `Reconcile`,
modelled here as `ReconcileSimple`), together with the CRD types of package
`appsv1alpha1`.

The client/Mutator is modelled as a single-key cluster state holding at most
one `CustomDeployment` and one `Deployment`; `Get` returns the object when
its namespace/name match the requested key and not-found otherwise, and
writes (`Create`, `Update`, `Delete`, status `Update`) take effect on the
state immediately.  Every client call is recorded in a trace so that frame
and effect properties can be stated.  Transient I/O, conflict and
authorization errors of the real client are outside the model: the only
read failure is not-found, which is what the claims under study are about.
-/

namespace CustomDeploymentCtl

/-- A namespaced object identity, as in `types.NamespacedName`. -/
structure ObjectKey where
  ns : String
  name : String
  deriving Repr, DecidableEq

/-- Spec of the CRD: `CustomDeploymentSpec` with `Replicas int32`. -/
structure CustomDeploymentSpec where
  replicas : Int
  deriving Repr, DecidableEq

/-- Status of the CRD: `CustomDeploymentStatus` with `AvailableReplicas int32`. -/
structure CustomDeploymentStatus where
  availableReplicas : Int
  deriving Repr, DecidableEq

/-- The parent object `appsv1alpha1.CustomDeployment`.  `deletionTimestamp`
is `none` exactly when the Go `DeletionTimestamp.IsZero()` holds. -/
structure CustomDeployment where
  name : String
  ns : String
  deletionTimestamp : Option Nat
  finalizers : List String
  spec : CustomDeploymentSpec
  status : CustomDeploymentStatus
  deriving Repr, DecidableEq

/-- One `metav1.OwnerReference`, restricted to the fields the controller
sets and the claims mention. -/
structure OwnerReference where
  apiVersion : String
  kind : String
  name : String
  controller : Bool
  deriving Repr, DecidableEq

/-- A `metav1.LabelSelector` with only `MatchLabels`. -/
structure LabelSelector where
  matchLabels : List (String × String)
  deriving Repr, DecidableEq

/-- A `corev1.Container` with the fields the controller sets. -/
structure Container where
  name : String
  image : String
  deriving Repr, DecidableEq

/-- A `corev1.PodTemplateSpec`: its object-meta labels and pod containers. -/
structure PodTemplateSpec where
  labels : List (String × String)
  containers : List Container
  deriving Repr, DecidableEq

/-- An `appsv1.DeploymentSpec`; `replicas` is a pointer in Go, hence `Option`. -/
structure DeploymentSpec where
  replicas : Option Int
  selector : Option LabelSelector
  template : PodTemplateSpec
  deriving Repr, DecidableEq

/-- An `appsv1.DeploymentStatus` restricted to `AvailableReplicas`. -/
structure DeploymentStatus where
  availableReplicas : Int
  deriving Repr, DecidableEq

/-- The dependent object `appsv1.Deployment`. -/
structure Deployment where
  name : String
  ns : String
  labels : List (String × String)
  ownerReferences : List OwnerReference
  deletionTimestamp : Option Nat
  spec : DeploymentSpec
  status : DeploymentStatus
  deriving Repr, DecidableEq

/-- The cluster state visible to the controller through its client: at most
one `CustomDeployment` and at most one dependent `Deployment`. -/
structure Cluster where
  cd : Option CustomDeployment
  dep : Option Deployment
  deriving Repr, DecidableEq

/-- One recorded client call.  `getCD`/`getDep` are reads; the rest are the
writes the claims speak about. -/
inductive Call where
  | getCD (k : ObjectKey)
  | getDep (k : ObjectKey)
  | createDep (d : Deployment)
  | updateDep (d : Deployment)
  | deleteDep (d : Deployment)
  | updateCD (cd : CustomDeployment)
  | statusUpdateCD (cd : CustomDeployment)
  deriving Repr, DecidableEq

/-- Whether a call is a write (Create, Update, Delete, or status update). -/
def Call.isWrite : Call → Bool
  | .getCD _ => false
  | .getDep _ => false
  | _ => true

/-- Whether a call is a Create of the dependent. -/
def Call.isCreate : Call → Bool
  | .createDep _ => true
  | _ => false

/-- Whether a call is an Update of the dependent. -/
def Call.isUpdateDep : Call → Bool
  | .updateDep _ => true
  | _ => false

/-- Whether a call is an Update of the parent (finalizer persistence). -/
def Call.isUpdateCD : Call → Bool
  | .updateCD _ => true
  | _ => false

/-- Whether a call is a status update of the parent. -/
def Call.isStatusUpdate : Call → Bool
  | .statusUpdateCD _ => true
  | _ => false

/-- The writes contained in a trace. -/
def writes (tr : List Call) : List Call := tr.filter Call.isWrite

/-- The result of one reconcile pass: the client-call trace, the returned
error (`none` models a nil error, and `ctrl.Result\x7b\x7d` carries no data),
and the cluster state after the pass. -/
structure RecOut where
  trace : List Call
  err : Option String
  post : Cluster
  deriving Repr, DecidableEq

/-- The client `Get` of the parent: found only when namespace and name match. -/
def getCD (st : Cluster) (k : ObjectKey) : Option CustomDeployment :=
  match st.cd with
  | some cd => if cd.ns = k.ns ∧ cd.name = k.name then some cd else none
  | none => none

/-- The client `Get` of the dependent Deployment. -/
def getDep (st : Cluster) (k : ObjectKey) : Option Deployment :=
  match st.dep with
  | some d => if d.ns = k.ns ∧ d.name = k.name then some d else none
  | none => none

/-- The finalizer token `customDeploymentFinalizer` of the controller. -/
def customDeploymentFinalizer : String := "apps.myorg.io/finalizer"

/-- `controllerutil.ContainsFinalizer`. -/
def containsFinalizer (cd : CustomDeployment) (f : String) : Bool :=
  cd.finalizers.contains f

/-- `controllerutil.AddFinalizer`: appends the token when absent. -/
def addFinalizer (cd : CustomDeployment) (f : String) : CustomDeployment :=
  if containsFinalizer cd f then cd
  else { cd with finalizers := cd.finalizers ++ [f] }

/-- `controllerutil.RemoveFinalizer`: removes every occurrence of the token. -/
def removeFinalizer (cd : CustomDeployment) (f : String) : CustomDeployment :=
  { cd with finalizers := cd.finalizers.filter (fun x => x ≠ f) }

/-- `desiredDeployment` from the source: name/namespace copied from the
parent, one `app=name` label used for object labels, selector match-labels
and pod-template labels, the parent's replica count, and a single
`nginx:latest` container.  Status is the Go zero value. -/
def desiredDeployment (cd : CustomDeployment) : Deployment :=
  let labels := [("app", cd.name)]
  { name := cd.name
    ns := cd.ns
    labels := labels
    ownerReferences := []
    deletionTimestamp := none
    spec :=
      { replicas := some cd.spec.replicas
        selector := some { matchLabels := labels }
        template :=
          { labels := labels
            containers := [{ name := "app", image := "nginx:latest" }] } }
    status := { availableReplicas := 0 } }

/-- The owner reference `ctrl.SetControllerReference` installs for a
`CustomDeployment` parent. -/
def ownerRef (cd : CustomDeployment) : OwnerReference :=
  { apiVersion := "apps.myorg.io/v1alpha1"
    kind := "CustomDeployment"
    name := cd.name
    controller := true }

/-- `ctrl.SetControllerReference`: fails with `AlreadyOwnedError` when the
object already has a controlling owner other than `cd`, otherwise installs
`ownerRef cd` as the controlling owner. -/
def setControllerReference (cd : CustomDeployment) (d : Deployment) :
    Except String Deployment :=
  if d.ownerReferences.any
      (fun r => r.controller && !(r.kind = "CustomDeployment" && r.name = cd.name)) then
    .error "AlreadyOwnedError"
  else
    .ok { d with ownerReferences :=
            d.ownerReferences.filter (fun r => !r.controller) ++ [ownerRef cd] }

/-- The Go drift test `deploy.Spec.Replicas == nil || *deploy.Spec.Replicas
!= cd.Spec.Replicas`. -/
def needsReplicaUpdate (d : Deployment) (cd : CustomDeployment) : Bool :=
  match d.spec.replicas with
  | none => true
  | some r => r != cd.spec.replicas

/-- Lines 108–114 of `handleCreateOrUpdate`: publish the dependent's
observed `AvailableReplicas` into the parent's status exactly when it
differs from the last-published value.  `deploy` is the Go local variable
at that point of the function. -/
def statusStep (st : Cluster) (cd : CustomDeployment) (deploy : Deployment)
    (tr : List Call) : RecOut :=
  if cd.status.availableReplicas ≠ deploy.status.availableReplicas then
    let cd' := { cd with status := { availableReplicas := deploy.status.availableReplicas } }
    { trace := tr ++ [.statusUpdateCD cd'], err := none, post := { st with cd := some cd' } }
  else
    { trace := tr, err := none, post := st }

/-- `handleCreateOrUpdate` from `internal/controller/controller.go`:
get the dependent; on not-found build the desired Deployment, set the
controller reference and create it; on found update the replica count when
drifted; then run the status step. -/
def handleCreateOrUpdate (st : Cluster) (cd : CustomDeployment) : RecOut :=
  let key : ObjectKey := { ns := cd.ns, name := cd.name }
  match getDep st key with
  | none =>
    match setControllerReference cd (desiredDeployment cd) with
    | .error e => { trace := [.getDep key], err := some e, post := st }
    | .ok deploy =>
      statusStep { st with dep := some deploy } cd deploy
        [.getDep key, .createDep deploy]
  | some deploy =>
    if needsReplicaUpdate deploy cd then
      let deploy' := { deploy with spec := { deploy.spec with replicas := some cd.spec.replicas } }
      statusStep { st with dep := some deploy' } cd deploy'
        [.getDep key, .updateDep deploy']
    else
      statusStep st cd deploy [.getDep key]

/-- `handleDeletion`: get the dependent; not-found means teardown already
complete (`true`); a live dependent is deleted and teardown stays pending
(`false`); a dependent already marked for deletion is left alone (`false`). -/
def handleDeletion (st : Cluster) (cd : CustomDeployment) :
    List Call × Bool × Cluster :=
  let key : ObjectKey := { ns := cd.ns, name := cd.name }
  match getDep st key with
  | none => ([.getDep key], true, st)
  | some deploy =>
    if deploy.deletionTimestamp = none then
      ([.getDep key, .deleteDep deploy], false, { st with dep := none })
    else
      ([.getDep key], false, st)

/-- `Reconcile` of the finalizer-aware controller
(`internal/controller/controller.go`): get the parent (not-found is
ignored); while not deleting, first ensure the finalizer then converge the
dependent; while deleting with the finalizer present, tear down and remove
the finalizer once teardown is confirmed complete. -/
def Reconcile (st : Cluster) (req : ObjectKey) : RecOut :=
  match getCD st req with
  | none => { trace := [.getCD req], err := none, post := st }
  | some cd =>
    if cd.deletionTimestamp = none then
      if !containsFinalizer cd customDeploymentFinalizer then
        let cd' := addFinalizer cd customDeploymentFinalizer
        { trace := [.getCD req, .updateCD cd'], err := none,
          post := { st with cd := some cd' } }
      else
        let out := handleCreateOrUpdate st cd
        { out with trace := .getCD req :: out.trace }
    else
      if containsFinalizer cd customDeploymentFinalizer then
        let res := handleDeletion st cd
        if res.2.1 then
          let cd' := removeFinalizer cd customDeploymentFinalizer
          { trace := .getCD req :: res.1 ++ [.updateCD cd'], err := none,
            post := { res.2.2 with cd := some cd' } }
        else
          { trace := .getCD req :: res.1, err := none, post := res.2.2 }
      else
        { trace := [.getCD req], err := none, post := st }

/-- `Reconcile` of the finalizer-free variant (`controller/controller.go`):
get the parent (not-found is ignored), then the same inline
get/create/update/status body, with no finalizer handling. -/
def ReconcileSimple (st : Cluster) (req : ObjectKey) : RecOut :=
  match getCD st req with
  | none => { trace := [.getCD req], err := none, post := st }
  | some cd =>
    let key : ObjectKey := { ns := cd.ns, name := cd.name }
    match getDep st key with
    | none =>
      match setControllerReference cd (desiredDeployment cd) with
      | .error e => { trace := [.getCD req, .getDep key], err := some e, post := st }
      | .ok deploy =>
        statusStep { st with dep := some deploy } cd deploy
          [.getCD req, .getDep key, .createDep deploy]
    | some deploy =>
      if needsReplicaUpdate deploy cd then
        let deploy' := { deploy with spec := { deploy.spec with replicas := some cd.spec.replicas } }
        statusStep { st with dep := some deploy' } cd deploy'
          [.getCD req, .getDep key, .updateDep deploy']
      else
        statusStep st cd deploy [.getCD req, .getDep key]

/-! Concrete states used by the witness theorems below. -/

/-- The request key used by all witnesses. -/
def wReq : ObjectKey := { ns := "ns", name := "foo" }

/-- An active parent that already carries the finalizer token. -/
def wCD : CustomDeployment :=
  { name := "foo", ns := "ns", deletionTimestamp := none,
    finalizers := [customDeploymentFinalizer],
    spec := { replicas := 5 }, status := { availableReplicas := 0 } }

/-- An active parent without the finalizer token. -/
def wCD5 : CustomDeployment := { wCD with finalizers := [] }

/-- A parent whose deletion has been requested. -/
def wCDdel : CustomDeployment := { wCD with deletionTimestamp := some 1 }

/-- A dependent owned by `wCD`, drifted to 3 replicas. -/
def wDep3 : Deployment :=
  { desiredDeployment wCD with
    ownerReferences := [ownerRef wCD]
    spec := { (desiredDeployment wCD).spec with replicas := some 3 } }

/-- A dependent owned by `wCD` and converged to its desired 5 replicas. -/
def wDep5 : Deployment :=
  { desiredDeployment wCD with ownerReferences := [ownerRef wCD] }

/-- A converged dependent reporting 4 available replicas. -/
def wDepAvail : Deployment :=
  { desiredDeployment wCD with
    ownerReferences := [ownerRef wCD]
    status := { availableReplicas := 4 } }

/-- A parent in deletion without the finalizer token. -/
def wCDdelNoFin : CustomDeployment := { wCDdel with finalizers := [] }

/-- A cluster holding the deleting parent and a live dependent. -/
def wStDel5 : Cluster := { cd := some wCDdel, dep := some wDep5 }

/-- A cluster holding the deleting parent and no dependent. -/
def wStDelNone : Cluster := { cd := some wCDdel, dep := none }

/-! Helper lemmas about the client reads and the record updates. -/

theorem getCD_inv {st : Cluster} {k : ObjectKey} {cd : CustomDeployment}
    (h : getCD st k = some cd) :
    st.cd = some cd ∧ cd.ns = k.ns ∧ cd.name = k.name := by
  unfold getCD at h
  split at h
  · rename_i x heq
    split at h
    · rename_i hm
      injection h with h
      subst h
      exact ⟨heq, hm.1, hm.2⟩
    · simp at h
  · simp at h

theorem getDep_inv {st : Cluster} {k : ObjectKey} {d : Deployment}
    (h : getDep st k = some d) :
    st.dep = some d ∧ d.ns = k.ns ∧ d.name = k.name := by
  unfold getDep at h
  split at h
  · rename_i x heq
    split at h
    · rename_i hm
      injection h with h
      subst h
      exact ⟨heq, hm.1, hm.2⟩
    · simp at h
  · simp at h

/-- C10: `desiredDeployment` copies name and namespace from the parent,
carries the parent's replica count, and its selector match-labels coincide
with the pod template's labels, both being the single pair `app=cd.Name`,
so the produced Deployment selects its own pods. -/
theorem desiredDeployment_selects_own_pods (cd : CustomDeployment) :
    (desiredDeployment cd).name = cd.name ∧
    (desiredDeployment cd).ns = cd.ns ∧
    (desiredDeployment cd).spec.replicas = some cd.spec.replicas ∧
    (desiredDeployment cd).spec.selector =
      some { matchLabels := (desiredDeployment cd).spec.template.labels } ∧
    (desiredDeployment cd).spec.template.labels = [("app", cd.name)] :=
  ⟨rfl, rfl, rfl, rfl, rfl⟩

/-- C5: on an active parent that does not yet carry the controller's
finalizer token, `Reconcile` adds the token, persists the parent, and does
nothing else in that pass: the full trace is the parent read followed by
the single parent update, the dependent is never read or written, no
status write happens, and the pass succeeds. -/
theorem reconcile_adds_finalizer_first (st : Cluster) (req : ObjectKey)
    (cd : CustomDeployment)
    (hget : getCD st req = some cd)
    (hdt : cd.deletionTimestamp = none)
    (hfin : containsFinalizer cd customDeploymentFinalizer = false) :
    Reconcile st req =
      { trace := [.getCD req, .updateCD (addFinalizer cd customDeploymentFinalizer)],
        err := none,
        post := { st with cd := some (addFinalizer cd customDeploymentFinalizer) } } ∧
    containsFinalizer (addFinalizer cd customDeploymentFinalizer)
      customDeploymentFinalizer = true := by
  constructor
  · simp [Reconcile, hget, hdt, hfin]
  · have hfin' := hfin
    simp [containsFinalizer] at hfin'
    simp [containsFinalizer, addFinalizer, hfin, hfin']

theorem reconcile_adds_finalizer_first_witness :
    getCD { cd := some wCD5, dep := none } wReq = some wCD5 ∧
    wCD5.deletionTimestamp = none ∧
    containsFinalizer wCD5 customDeploymentFinalizer = false ∧
    (Reconcile { cd := some wCD5, dep := none } wReq =
      { trace := [.getCD wReq, .updateCD (addFinalizer wCD5 customDeploymentFinalizer)],
        err := none,
        post := { cd := some (addFinalizer wCD5 customDeploymentFinalizer), dep := none } } ∧
     containsFinalizer (addFinalizer wCD5 customDeploymentFinalizer)
       customDeploymentFinalizer = true) :=
  ⟨by decide, by decide, by decide,
    reconcile_adds_finalizer_first _ _ _ (by decide) (by decide) (by decide)⟩

/-- C6: on a parent whose deletion is in progress and whose finalizer set
does not carry the controller's token, `Reconcile` is terminal: it returns a
nil error and its trace consists of the parent read alone, so the dependent
is neither read nor written, no finalizer change happens, no status write
happens, and the state is untouched. -/
theorem reconcile_terminal_no_finalizer (st : Cluster) (req : ObjectKey)
    (cd : CustomDeployment)
    (hget : getCD st req = some cd)
    (hdt : cd.deletionTimestamp ≠ none)
    (hfin : containsFinalizer cd customDeploymentFinalizer = false) :
    Reconcile st req = { trace := [.getCD req], err := none, post := st } := by
  simp [Reconcile, hget, hdt, hfin]

theorem reconcile_terminal_no_finalizer_witness :
    getCD { cd := some wCDdelNoFin, dep := some wDep5 } wReq = some wCDdelNoFin ∧
    wCDdelNoFin.deletionTimestamp ≠ none ∧
    containsFinalizer wCDdelNoFin customDeploymentFinalizer = false ∧
    Reconcile { cd := some wCDdelNoFin, dep := some wDep5 } wReq =
      { trace := [.getCD wReq], err := none,
        post := { cd := some wCDdelNoFin, dep := some wDep5 } } :=
  ⟨by decide, by decide, by decide,
    reconcile_terminal_no_finalizer { cd := some wCDdelNoFin, dep := some wDep5 }
      wReq wCDdelNoFin (by decide) (by decide) (by decide)⟩

/-- C7: a not-found read is never surfaced as an error.  First part: when
the parent itself is not found, `Reconcile` returns a nil error, its trace
is the single parent read, and the state is untouched.  Second part: during
teardown, a not-found on the dependent read is treated as already-converged
success, with a nil error in that same pass. -/
theorem notfound_reads_are_not_errors :
    (∀ st req, getCD st req = none →
      Reconcile st req = { trace := [.getCD req], err := none, post := st }) ∧
    (∀ st req cd, getCD st req = some cd → cd.deletionTimestamp ≠ none →
      containsFinalizer cd customDeploymentFinalizer = true →
      getDep st { ns := cd.ns, name := cd.name } = none →
      (Reconcile st req).err = none) := by
  constructor
  · intro st req hget
    simp [Reconcile, hget]
  · intro st req cd hget hdt hfin hdep
    simp [Reconcile, hget, hdt, hfin, handleDeletion, hdep]

theorem notfound_reads_are_not_errors_witness :
    (getCD { cd := none, dep := none } wReq = none ∧
     Reconcile { cd := none, dep := none } wReq =
       { trace := [.getCD wReq], err := none, post := { cd := none, dep := none } }) ∧
    (getCD { cd := some wCDdel, dep := none } wReq = some wCDdel ∧
     wCDdel.deletionTimestamp ≠ none ∧
     containsFinalizer wCDdel customDeploymentFinalizer = true ∧
     getDep { cd := some wCDdel, dep := none } { ns := wCDdel.ns, name := wCDdel.name } = none ∧
     (Reconcile { cd := some wCDdel, dep := none } wReq).err = none) :=
  ⟨⟨by decide, notfound_reads_are_not_errors.1 { cd := none, dep := none } wReq (by decide)⟩,
   ⟨by decide, by decide, by decide, by decide,
    notfound_reads_are_not_errors.2 { cd := some wCDdel, dep := none } wReq wCDdel
      (by decide) (by decide) (by decide) (by decide)⟩⟩

/-- C2: on a parent in deletion with the finalizer present, the finalizer
token is removed and persisted only when the dependent is observed absent;
while the dependent is still observed, no parent update happens at all.
If the dependent is already gone, the same pass removes the token, persists
the parent, and returns a nil error. -/
theorem deletion_removes_finalizer_only_when_gone (st : Cluster) (req : ObjectKey)
    (cd : CustomDeployment)
    (hget : getCD st req = some cd)
    (hdt : cd.deletionTimestamp ≠ none)
    (hfin : containsFinalizer cd customDeploymentFinalizer = true) :
    (∀ d, getDep st { ns := cd.ns, name := cd.name } = some d →
      (Reconcile st req).post.cd = st.cd ∧
      (Reconcile st req).trace.countP Call.isUpdateCD = 0) ∧
    (getDep st { ns := cd.ns, name := cd.name } = none →
      Reconcile st req =
        { trace := [.getCD req, .getDep { ns := cd.ns, name := cd.name },
                    .updateCD (removeFinalizer cd customDeploymentFinalizer)],
          err := none,
          post := { st with cd := some (removeFinalizer cd customDeploymentFinalizer) } } ∧
      containsFinalizer (removeFinalizer cd customDeploymentFinalizer)
        customDeploymentFinalizer = false) := by
  constructor
  · intro d hdep
    by_cases hz : d.deletionTimestamp = none
    · simp [Reconcile, hget, hdt, hfin, handleDeletion, hdep, hz,
        Call.isUpdateCD, List.countP_cons]
    · simp [Reconcile, hget, hdt, hfin, handleDeletion, hdep, hz,
        Call.isUpdateCD, List.countP_cons]
  · intro hdep
    refine ⟨by simp [Reconcile, hget, hdt, hfin, handleDeletion, hdep], ?_⟩
    simp [containsFinalizer, removeFinalizer]

theorem deletion_removes_finalizer_only_when_gone_witness :
    (getCD wStDel5 wReq = some wCDdel ∧
     wCDdel.deletionTimestamp ≠ none ∧
     containsFinalizer wCDdel customDeploymentFinalizer = true ∧
     getDep wStDel5 { ns := wCDdel.ns, name := wCDdel.name } = some wDep5 ∧
     ((Reconcile wStDel5 wReq).post.cd = wStDel5.cd ∧
      (Reconcile wStDel5 wReq).trace.countP Call.isUpdateCD = 0)) ∧
    (getDep wStDelNone { ns := wCDdel.ns, name := wCDdel.name } = none ∧
     (Reconcile wStDelNone wReq =
        { trace := [.getCD wReq, .getDep { ns := wCDdel.ns, name := wCDdel.name },
                    .updateCD (removeFinalizer wCDdel customDeploymentFinalizer)],
          err := none,
          post := { wStDelNone with
                    cd := some (removeFinalizer wCDdel customDeploymentFinalizer) } } ∧
      containsFinalizer (removeFinalizer wCDdel customDeploymentFinalizer)
        customDeploymentFinalizer = false)) :=
  ⟨⟨by decide, by decide, by decide, by decide,
    (deletion_removes_finalizer_only_when_gone wStDel5 wReq wCDdel
      (by decide) (by decide) (by decide)).1 wDep5 (by decide)⟩,
   ⟨by decide,
    (deletion_removes_finalizer_only_when_gone wStDelNone wReq wCDdel
      (by decide) (by decide) (by decide)).2 (by decide)⟩⟩

theorem needsReplicaUpdate_iff (d : Deployment) (cd : CustomDeployment) :
    needsReplicaUpdate d cd = true ↔ d.spec.replicas ≠ some cd.spec.replicas := by
  unfold needsReplicaUpdate
  cases h : d.spec.replicas <;> simp

/-- C3: on an active parent with the finalizer present and no dependent
observed, `Reconcile` issues exactly one Create call, whose argument
carries exactly one owner reference — the controlling (`Controller=true`)
reference to the `CustomDeployment` — and the parent's replica count, and
the pass succeeds. -/
theorem reconcile_creates_missing_dep (st : Cluster) (req : ObjectKey)
    (cd : CustomDeployment)
    (hget : getCD st req = some cd)
    (hdt : cd.deletionTimestamp = none)
    (hfin : containsFinalizer cd customDeploymentFinalizer = true)
    (hdep : getDep st { ns := cd.ns, name := cd.name } = none) :
    (Reconcile st req).trace.filter Call.isCreate =
      [Call.createDep { desiredDeployment cd with ownerReferences := [ownerRef cd] }] ∧
    ({ desiredDeployment cd with ownerReferences := [ownerRef cd] } :
        Deployment).ownerReferences = [ownerRef cd] ∧
    (ownerRef cd).controller = true ∧
    (ownerRef cd).kind = "CustomDeployment" ∧
    (ownerRef cd).name = cd.name ∧
    ({ desiredDeployment cd with ownerReferences := [ownerRef cd] } :
        Deployment).spec.replicas = some cd.spec.replicas ∧
    (Reconcile st req).err = none := by
  by_cases hs : cd.status.availableReplicas = (0 : Int) <;>
    simp [Reconcile, hget, hdt, hfin, handleCreateOrUpdate, hdep,
      setControllerReference, statusStep, hs, Call.isCreate,
      desiredDeployment, ownerRef]

theorem reconcile_creates_missing_dep_witness :
    getCD { cd := some wCD, dep := none } wReq = some wCD ∧
    wCD.deletionTimestamp = none ∧
    containsFinalizer wCD customDeploymentFinalizer = true ∧
    getDep { cd := some wCD, dep := none } { ns := wCD.ns, name := wCD.name } = none ∧
    ((Reconcile { cd := some wCD, dep := none } wReq).trace.filter Call.isCreate =
       [Call.createDep { desiredDeployment wCD with ownerReferences := [ownerRef wCD] }] ∧
     ({ desiredDeployment wCD with ownerReferences := [ownerRef wCD] } :
         Deployment).ownerReferences = [ownerRef wCD] ∧
     (ownerRef wCD).controller = true ∧
     (ownerRef wCD).kind = "CustomDeployment" ∧
     (ownerRef wCD).name = wCD.name ∧
     ({ desiredDeployment wCD with ownerReferences := [ownerRef wCD] } :
         Deployment).spec.replicas = some wCD.spec.replicas ∧
     (Reconcile { cd := some wCD, dep := none } wReq).err = none) :=
  ⟨by decide, by decide, by decide, by decide,
    reconcile_creates_missing_dep { cd := some wCD, dep := none } wReq wCD
      (by decide) (by decide) (by decide) (by decide)⟩

/-- C4: on an active parent with the finalizer present and an observed
dependent, a drifted replica count triggers exactly one Update call whose
argument is the observed dependent with only `Spec.Replicas` changed to the
desired count (every other field unchanged), and an agreeing replica count
triggers no Update call at all. -/
theorem reconcile_update_touches_only_replicas (st : Cluster) (req : ObjectKey)
    (cd : CustomDeployment) (d : Deployment)
    (hget : getCD st req = some cd)
    (hdt : cd.deletionTimestamp = none)
    (hfin : containsFinalizer cd customDeploymentFinalizer = true)
    (hdep : getDep st { ns := cd.ns, name := cd.name } = some d) :
    (d.spec.replicas ≠ some cd.spec.replicas →
      (Reconcile st req).trace.filter Call.isUpdateDep =
        [Call.updateDep { d with spec := { d.spec with replicas := some cd.spec.replicas } }]) ∧
    (d.spec.replicas = some cd.spec.replicas →
      (Reconcile st req).trace.filter Call.isUpdateDep = []) := by
  constructor
  · intro hne
    have hup : needsReplicaUpdate d cd = true := (needsReplicaUpdate_iff d cd).mpr hne
    by_cases hs : cd.status.availableReplicas = d.status.availableReplicas <;>
      simp [Reconcile, hget, hdt, hfin, handleCreateOrUpdate, hdep, hup,
        statusStep, hs, Call.isUpdateDep]
  · intro heq
    have hup : needsReplicaUpdate d cd = false := by simp [needsReplicaUpdate, heq]
    by_cases hs : cd.status.availableReplicas = d.status.availableReplicas <;>
      simp [Reconcile, hget, hdt, hfin, handleCreateOrUpdate, hdep, hup,
        statusStep, hs, Call.isUpdateDep]

theorem reconcile_update_touches_only_replicas_witness :
    getCD { cd := some wCD, dep := some wDep3 } wReq = some wCD ∧
    wCD.deletionTimestamp = none ∧
    containsFinalizer wCD customDeploymentFinalizer = true ∧
    getDep { cd := some wCD, dep := some wDep3 } { ns := wCD.ns, name := wCD.name } =
      some wDep3 ∧
    wDep3.spec.replicas ≠ some wCD.spec.replicas ∧
    (Reconcile { cd := some wCD, dep := some wDep3 } wReq).trace.filter Call.isUpdateDep =
      [Call.updateDep
        { wDep3 with spec := { wDep3.spec with replicas := some wCD.spec.replicas } }] :=
  ⟨by decide, by decide, by decide, by decide, by decide,
    (reconcile_update_touches_only_replicas { cd := some wCD, dep := some wDep3 }
      wReq wCD wDep3 (by decide) (by decide) (by decide) (by decide)).1 (by decide)⟩

/-- C8: on an active parent with the finalizer present and an observed
dependent, the pass writes the parent's status exactly once when the
dependent's observed `AvailableReplicas` differs from the last-published
`Status.AvailableReplicas` and not at all when they agree; a written status
carries the observed value. -/
theorem status_written_iff_drift (st : Cluster) (req : ObjectKey)
    (cd : CustomDeployment) (d : Deployment)
    (hget : getCD st req = some cd)
    (hdt : cd.deletionTimestamp = none)
    (hfin : containsFinalizer cd customDeploymentFinalizer = true)
    (hdep : getDep st { ns := cd.ns, name := cd.name } = some d) :
    (Reconcile st req).trace.countP Call.isStatusUpdate =
      (if cd.status.availableReplicas = d.status.availableReplicas then 0 else 1) ∧
    (cd.status.availableReplicas ≠ d.status.availableReplicas →
      (Reconcile st req).post.cd =
        some { cd with status := { availableReplicas := d.status.availableReplicas } }) := by
  by_cases hu : needsReplicaUpdate d cd <;>
    by_cases hs : cd.status.availableReplicas = d.status.availableReplicas <;>
    simp [Reconcile, hget, hdt, hfin, handleCreateOrUpdate, hdep, hu, hs,
      statusStep, Call.isStatusUpdate, List.countP_cons]

theorem status_written_iff_drift_witness :
    getCD { cd := some wCD, dep := some wDepAvail } wReq = some wCD ∧
    wCD.deletionTimestamp = none ∧
    containsFinalizer wCD customDeploymentFinalizer = true ∧
    getDep { cd := some wCD, dep := some wDepAvail } { ns := wCD.ns, name := wCD.name } =
      some wDepAvail ∧
    ((Reconcile { cd := some wCD, dep := some wDepAvail } wReq).trace.countP
        Call.isStatusUpdate =
      (if wCD.status.availableReplicas = wDepAvail.status.availableReplicas then 0 else 1) ∧
     (wCD.status.availableReplicas ≠ wDepAvail.status.availableReplicas →
      (Reconcile { cd := some wCD, dep := some wDepAvail } wReq).post.cd =
        some { wCD with
               status := { availableReplicas := wDepAvail.status.availableReplicas } })) :=
  ⟨by decide, by decide, by decide, by decide,
    status_written_iff_drift { cd := some wCD, dep := some wDepAvail } wReq wCD wDepAvail
      (by decide) (by decide) (by decide) (by decide)⟩

/-- C9: on an active parent whose finalizer set already contains the token,
the finalizer-aware `Reconcile` and the finalizer-free variant issue the
same client-call sequence with the same arguments, return the same error,
and leave the same state, whatever the dependent's state is. -/
theorem reconcile_agrees_with_finalizer_free (st : Cluster) (req : ObjectKey)
    (cd : CustomDeployment)
    (hget : getCD st req = some cd)
    (hdt : cd.deletionTimestamp = none)
    (hfin : containsFinalizer cd customDeploymentFinalizer = true) :
    Reconcile st req = ReconcileSimple st req := by
  cases hdep : getDep st { ns := cd.ns, name := cd.name } with
  | none =>
    by_cases hs : cd.status.availableReplicas = (0 : Int) <;>
      simp [Reconcile, ReconcileSimple, hget, hdt, hfin, handleCreateOrUpdate,
        hdep, setControllerReference, statusStep, hs, desiredDeployment]
  | some d =>
    by_cases hu : needsReplicaUpdate d cd <;>
      by_cases hs : cd.status.availableReplicas = d.status.availableReplicas <;>
      simp [Reconcile, ReconcileSimple, hget, hdt, hfin, handleCreateOrUpdate,
        hdep, hu, hs, statusStep]

theorem reconcile_agrees_with_finalizer_free_witness :
    getCD { cd := some wCD, dep := some wDep3 } wReq = some wCD ∧
    wCD.deletionTimestamp = none ∧
    containsFinalizer wCD customDeploymentFinalizer = true ∧
    Reconcile { cd := some wCD, dep := some wDep3 } wReq =
      ReconcileSimple { cd := some wCD, dep := some wDep3 } wReq :=
  ⟨by decide, by decide, by decide,
    reconcile_agrees_with_finalizer_free { cd := some wCD, dep := some wDep3 } wReq wCD
      (by decide) (by decide) (by decide)⟩

theorem addFinalizer_changes {cd : CustomDeployment}
    (h : containsFinalizer cd customDeploymentFinalizer = false) :
    addFinalizer cd customDeploymentFinalizer ≠ cd := by
  intro he
  have h' := h
  simp [containsFinalizer] at h'
  have h2 : containsFinalizer (addFinalizer cd customDeploymentFinalizer)
      customDeploymentFinalizer = true := by
    simp [containsFinalizer, addFinalizer, h, h']
  rw [he] at h2
  simp [h] at h2

theorem removeFinalizer_not_contains (cd : CustomDeployment) (f : String) :
    containsFinalizer (removeFinalizer cd f) f = false := by
  simp [containsFinalizer, removeFinalizer]

theorem handleCreateOrUpdate_fixed {st : Cluster} {cd : CustomDeployment}
    (hcd : st.cd = some cd)
    (h : (handleCreateOrUpdate st cd).post = st) :
    writes (handleCreateOrUpdate st cd).trace = [] := by
  cases hdep : getDep st { ns := cd.ns, name := cd.name } with
  | none =>
    exfalso
    have hpd : (handleCreateOrUpdate st cd).post.dep =
        some { desiredDeployment cd with ownerReferences := [ownerRef cd] } := by
      by_cases hs : cd.status.availableReplicas = (0 : Int) <;>
        simp [handleCreateOrUpdate, hdep, setControllerReference, statusStep, hs,
          desiredDeployment, ownerRef]
    rw [h] at hpd
    unfold getDep at hdep
    rw [hpd] at hdep
    simp [desiredDeployment, ownerRef] at hdep
  | some d =>
    by_cases hu : needsReplicaUpdate d cd = true
    · exfalso
      have hpd : (handleCreateOrUpdate st cd).post.dep =
          some { d with spec := { d.spec with replicas := some cd.spec.replicas } } := by
        by_cases hs : cd.status.availableReplicas = d.status.availableReplicas <;>
          simp [handleCreateOrUpdate, hdep, hu, statusStep, hs]
      rw [h] at hpd
      rw [(getDep_inv hdep).1] at hpd
      injection hpd with hpd
      have hrep : d.spec.replicas = some cd.spec.replicas := by
        have := congrArg (fun x => x.spec.replicas) hpd
        simpa using this
      exact ((needsReplicaUpdate_iff d cd).mp hu) hrep
    · have hu' : needsReplicaUpdate d cd = false := by
        simpa using hu
      by_cases hs : cd.status.availableReplicas = d.status.availableReplicas
      · simp [handleCreateOrUpdate, hdep, hu', statusStep, hs, writes, Call.isWrite]
      · exfalso
        have hpc : (handleCreateOrUpdate st cd).post.cd =
            some { cd with status := { availableReplicas := d.status.availableReplicas } } := by
          simp [handleCreateOrUpdate, hdep, hu', statusStep, hs]
        rw [h, hcd] at hpc
        injection hpc with hpc
        have := congrArg (fun x => x.status.availableReplicas) hpc
        simp at this
        exact hs this

theorem reconcile_fixed_no_writes (st : Cluster) (req : ObjectKey)
    (h : (Reconcile st req).post = st) :
    writes (Reconcile st req).trace = [] := by
  cases hget : getCD st req with
  | none => simp [Reconcile, hget, writes, Call.isWrite]
  | some cd =>
    have hcd := (getCD_inv hget).1
    by_cases hdt : cd.deletionTimestamp = none
    · by_cases hfin : containsFinalizer cd customDeploymentFinalizer = true
      · have hpost : (Reconcile st req).post = (handleCreateOrUpdate st cd).post := by
          simp [Reconcile, hget, hdt, hfin]
        have htr : (Reconcile st req).trace =
            Call.getCD req :: (handleCreateOrUpdate st cd).trace := by
          simp [Reconcile, hget, hdt, hfin]
        have hw := handleCreateOrUpdate_fixed hcd (hpost ▸ h)
        rw [htr]
        simpa [writes, Call.isWrite] using hw
      · exfalso
        have hb : containsFinalizer cd customDeploymentFinalizer = false := by
          simpa using hfin
        have hpc : (Reconcile st req).post.cd =
            some (addFinalizer cd customDeploymentFinalizer) := by
          simp [Reconcile, hget, hdt, hb]
        rw [h, hcd] at hpc
        injection hpc with hpc
        exact addFinalizer_changes hb hpc.symm
    · by_cases hfin : containsFinalizer cd customDeploymentFinalizer = true
      · cases hdep : getDep st { ns := cd.ns, name := cd.name } with
        | none =>
          exfalso
          have hpc : (Reconcile st req).post.cd =
              some (removeFinalizer cd customDeploymentFinalizer) := by
            simp [Reconcile, hget, hdt, hfin, handleDeletion, hdep]
          rw [h, hcd] at hpc
          injection hpc with hpc
          have hnc := removeFinalizer_not_contains cd customDeploymentFinalizer
          rw [← hpc] at hnc
          simp [hnc] at hfin
        | some d =>
          by_cases hz : d.deletionTimestamp = none
          · exfalso
            have hpd : (Reconcile st req).post.dep = none := by
              simp [Reconcile, hget, hdt, hfin, handleDeletion, hdep, hz]
            rw [h] at hpd
            rw [(getDep_inv hdep).1] at hpd
            simp at hpd
          · simp [Reconcile, hget, hdt, hfin, handleDeletion, hdep, hz,
              writes, Call.isWrite]
      · have hb : containsFinalizer cd customDeploymentFinalizer = false := by
          simpa using hfin
        simp [Reconcile, hget, hdt, hb, writes, Call.isWrite]

/-- C1: `Reconcile` is idempotent.  When it is invoked twice in succession
and the state read by the second call is unchanged from what the first call
read, the second call performs no writes at all — no Create, Update, Delete
or status update reaches the Mutator. -/
theorem reconcile_idempotent (st : Cluster) (req : ObjectKey)
    (h : (Reconcile st req).post = st) :
    writes (Reconcile (Reconcile st req).post req).trace = [] := by
  rw [h]
  exact reconcile_fixed_no_writes st req h

theorem reconcile_idempotent_witness :
    (Reconcile { cd := some wCD, dep := some wDep5 } wReq).post =
      { cd := some wCD, dep := some wDep5 } ∧
    writes (Reconcile
      (Reconcile { cd := some wCD, dep := some wDep5 } wReq).post wReq).trace = [] :=
  ⟨by decide,
    reconcile_idempotent { cd := some wCD, dep := some wDep5 } wReq (by decide)⟩

end CustomDeploymentCtl
